import Mathlib

/-!
Shallow embedding of the SVG translator (src/svg_translator.py) and proofs
about its paragraph-reflow heuristic, tag filtering and file validation.

External dependencies of the script are modelled as opaque function
parameters, exactly as the spec treats them:
  * the translation backend (`translate`, a network call) is a parameter
    `tf : String → String`;
  * the sentence tokenizer (`nltk.sent_tokenize`) is a parameter
    `tok : String → List String`;
  * the line wrapper (`textwrap.wrap`) is a parameter
    `wr : String → Nat → List String`.
Every concrete instantiation used below is annotated with the value the
real library returns on that input.

Mutation of the lxml tree is modelled by returning the updated elements;
the strings passed to the translation backend are collected in a call log
so that "never calls the translation function" claims can be stated.
-/

namespace SvgTranslator

/-- A character stripped by Python's `str.strip()` (ASCII whitespace;
the script's inputs are ASCII so the Unicode spaces Python also strips
are irrelevant here). -/
def pyWhitespace (c : Char) : Bool :=
  c == ' ' || c == '\t' || c == '\n' || c == '\r' || c == '\x0b' || c == '\x0c'

/-- Python's `str.strip()`: drop leading and trailing whitespace. -/
def pyStrip (s : String) : String :=
  ⟨((s.data.dropWhile pyWhitespace).reverse.dropWhile pyWhitespace).reverse⟩

/-- Python's `' '.join(...)`: join a list of strings with single spaces. -/
def spaceJoin : List String → String
  | [] => ""
  | [s] => s
  | s :: rest => s ++ " " ++ spaceJoin rest

/-- Python's `s.split()` (no separator): the maximal whitespace-free runs. -/
def pyWordsAux : List Char → List Char → List String
  | [], [] => []
  | [], acc => [⟨acc.reverse⟩]
  | c :: rest, acc =>
    if pyWhitespace c then
      match acc with
      | [] => pyWordsAux rest []
      | _ => (⟨acc.reverse⟩ : String) :: pyWordsAux rest []
    else pyWordsAux rest (c :: acc)

/-- Python's `s.split()` on a whole string. -/
def pyWords (s : String) : List String :=
  pyWordsAux s.data []

/-- Whitespace normalization as the spec uses the phrase: strip the ends and
collapse internal whitespace runs to single spaces (`' '.join(s.split())`). -/
def normalizeWs (s : String) : String :=
  spaceJoin (pyWords s)

/-- Python's `str.lower()` (ASCII case folding; every string the script
compares after lowering is ASCII). -/
def pyLower (s : String) : String :=
  ⟨s.data.map Char.toLower⟩

/-- One of the characters of the `INVALID_TEXT` class `[<>^*=]`
(src/svg_translator.py:25). -/
def invalidChar (c : Char) : Bool :=
  c == '<' || c == '>' || c == '^' || c == '*' || c == '='

/-- `INVALID_TEXT.match(s)` truthiness: `re.match` anchors at the start of
the string, so the single-character class matches iff the FIRST character
is invalid (src/svg_translator.py:123). -/
def invalidTextMatch (s : String) : Bool :=
  match s.data with
  | [] => false
  | c :: _ => invalidChar c

/-- `INVALID_TEXT.findall(s)` truthiness: some invalid character occurs
anywhere in the string (src/svg_translator.py:138). -/
def invalidTextFindall (s : String) : Bool :=
  s.data.any invalidChar

/-- Left brace character (written by code point to keep it out of string
literals). -/
def lbrace : Char := Char.ofNat 123

/-- Right brace character. -/
def rbrace : Char := Char.ofNat 125

/-- The regex `TSPAN_TAG = ^\{.*?\}tspan$` (src/svg_translator.py:24):
the tag is `{` followed by a newline-free namespace part, then `}tspan`.
The anchored suffix pins the closing brace six characters from the end, so
the regex matches iff the string decomposes that way. -/
def isTspanTag (tag : String) : Bool :=
  match tag.data with
  | [] => false
  | c :: rest =>
    c == lbrace && (rbrace :: "tspan".data).isSuffixOf rest
      && !((rest.take (rest.length - 6)).contains '\n')

/-- The paragraph built by `translate_file` pairs each kept tspan child with
its text; we record the child's position among its siblings in place of the
lxml element reference, which is enough to model the in-place mutation. -/
abbrev Paragraph := List (Nat × String)

/-- `' '.join([text.strip() for (child, text) in paragraph])`
(src/svg_translator.py:64). -/
def rawParagraph (para : Paragraph) : String :=
  spaceJoin (para.map fun p => pyStrip p.2)

/-- `max([len(text) for (child, text) in paragraph])` over the original,
unstripped fragment texts (src/svg_translator.py:62); for the empty list
the source raises `ValueError`, the fold returns 0 (never reached: callers
pass nonempty paragraphs). -/
def maxFragLen (para : Paragraph) : Nat :=
  (para.map fun p => p.2.length).foldl Nat.max 0

/-- Lines 71-74 of the source: tokenize the raw paragraph into phrases,
translate each phrase, rejoin with spaces and wrap to `max_size - 1`. -/
def wrappedTranslation (tf : String → String) (tok : String → List String)
    (wr : String → Nat → List String) (para : Paragraph) : List String :=
  wr (spaceJoin ((tok (rawParagraph para)).map tf)) (maxFragLen para - 1)

/-- Lines 77-83 of the source, the `new_size > size` branch:
`[translated_paragraph.pop(-1) for i in range(diff)]` pops the last `diff`
lines one at a time, so `tail` is those lines in REVERSE order, space-joined;
the remaining last line is then replaced by `' '.join([last, tail])`. -/
def mergeTail (lines : List String) (size : Nat) : List String :=
  let tail := spaceJoin (lines.drop size).reverse
  (lines.take size).dropLast ++ [spaceJoin [(lines.take size).getLastD "", tail]]

/-- Lines 76-91 of the source: force the wrapped line count to `size`,
merging surplus trailing lines into the last line or padding with empty
strings. -/
def reconcileLines (lines : List String) (size : Nat) : List String :=
  if size < lines.length then mergeTail lines size
  else if lines.length < size then lines ++ List.replicate (size - lines.length) ""
  else lines

/-- `translate_split_paragraph` (src/svg_translator.py:60-96).  Returns the
new `(position, text)` assignment for the paragraph's elements together with
the log of strings handed to the translation backend.  The `zip` of the
source truncates exactly like `List.zipWith`.  On the empty paragraph the
source raises (`max` of an empty list); that case is never reached. -/
def translate_split_paragraph (tf : String → String) (tok : String → List String)
    (wr : String → Nat → List String) (paragraph : Paragraph) :
    Paragraph × List String :=
  match paragraph with
  | [] => ([], [])
  | _ :: _ =>
    if pyLower (rawParagraph paragraph) = "creative commons" then
      (paragraph, [])
    else
      let phrases := tok (rawParagraph paragraph)
      let lines := reconcileLines (wrappedTranslation tf tok wr paragraph)
        paragraph.length
      (paragraph.zipWith (fun p line => (p.1, line)) lines, phrases)

/-- A child element of a `text` element: its XML tag and its optional text
(`None` in lxml is `none` here, the empty string stays `some ""`). -/
structure Child where
  tag : String
  text : Option String
deriving DecidableEq, Repr

/-- A `text` element as `translate_file` sees it: its own text and its
children in document order. -/
structure TextElem where
  text : Option String
  children : List Child
deriving DecidableEq, Repr

/-- The filter of lines 136-144 of the source: a child joins the paragraph
iff its tag matches `TSPAN_TAG`, its text is truthy (present and nonempty)
and `INVALID_TEXT.findall` finds nothing in it. -/
def qualifies (c : Child) : Bool :=
  isTspanTag c.tag && (match c.text with | some t => t != "" | none => false)
    && !(invalidTextFindall (c.text.getD ""))

/-- Lines 132-144 of the source: walk the children in document order,
keeping `(position, text)` for each qualifying tspan. -/
def buildParagraph : Nat → List Child → Paragraph
  | _, [] => []
  | i, c :: cs =>
    if qualifies c then (i, c.text.getD "") :: buildParagraph (i + 1) cs
    else buildParagraph (i + 1) cs

/-- Write an assignment list back into the children.  The source mutates the
lxml child objects through the references stored in the paragraph; positions
produced by `buildParagraph` are strictly increasing, which this sequential
walk relies on, mirroring reference semantics. -/
def applyAssignments : Nat → List Child → Paragraph → List Child
  | _, [], _ => []
  | _, c :: cs, [] => c :: cs
  | k, c :: cs, (j, t) :: rest =>
    if k = j then { c with text := some t } :: applyAssignments (k + 1) cs rest
    else c :: applyAssignments (k + 1) cs ((j, t) :: rest)

/-- Lines 122-129 of the source: the text element's own text is translated
iff it is truthy and `INVALID_TEXT.match` (a PREFIX check) fails on it.
Returns the new text and the translation calls made. -/
def processTopText (tf : String → String) (e : TextElem) :
    Option String × List String :=
  match e.text with
  | none => (none, [])
  | some t =>
    if t = "" then (some t, [])
    else if invalidTextMatch t then (some t, [])
    else (some (tf t), [t])

/-- The body of `translate_file`'s loop for one text element
(src/svg_translator.py:121-164): handle the element's own text, build the
paragraph from the children, then translate a lone fragment directly or
reflow a multi-fragment paragraph. -/
def processTextElement (tf : String → String) (tok : String → List String)
    (wr : String → Nat → List String) (e : TextElem) : TextElem × List String :=
  let top := processTopText tf e
  match buildParagraph 0 e.children with
  | [] => ({ e with text := top.1 }, top.2)
  | [pt] =>
    ({ text := top.1, children := applyAssignments 0 e.children [(pt.1, tf pt.2)] },
     top.2 ++ [pt.2])
  | para =>
    let r := translate_split_paragraph tf tok wr para
    ({ text := top.1, children := applyAssignments 0 e.children r.1 },
     top.2 ++ r.2)

/-- `translate_file` over the text elements of the document
(src/svg_translator.py:117-164); the sequential loop is rendered as a map
over the elements, with the translation-call logs concatenated in order. -/
def translate_file (tf : String → String) (tok : String → List String)
    (wr : String → Nat → List String) (elems : List TextElem) :
    List TextElem × List String :=
  (elems.map fun e => (processTextElement tf tok wr e).1,
   (elems.map fun e => (processTextElement tf tok wr e).2).flatten)

/-- The file-system facts `validate_file` consults (`os.path.exists` and
`os.path.isfile`), as an oracle. -/
structure FileSys where
  pathExists : String → Bool
  isfile : String → Bool

/-- Python's `s.endswith(suffix)`. -/
def pyEndsWith (s suffix : String) : Bool :=
  suffix.data.isSuffixOf s.data

/-- `validate_file` (src/svg_translator.py:175-186).  First component: the
returned value (`none` models the implicit `return None` when the path
exists, ends in `svg`, but is not a regular file).  Second component:
whether a warning was logged. -/
def validate_file (fs : FileSys) (fname : String) : Option Bool × Bool :=
  if fs.pathExists fname = false then (some false, true)
  else if pyEndsWith fname "svg" = false then (some false, true)
  else if fs.isfile fname then (some true, false)
  else (none, false)

/-- Python's lexicographic string comparison (code point by code point),
the order `list.sort()` uses. -/
def pyStrLeAux : List Char → List Char → Bool
  | [], _ => true
  | _ :: _, [] => false
  | a :: as, b :: bs =>
    if a.toNat < b.toNat then true
    else if b.toNat < a.toNat then false
    else pyStrLeAux as bs

/-- Python's `a <= b` on strings. -/
def pyStrLe (a b : String) : Bool :=
  pyStrLeAux a.data b.data

/-- Lines 258-266 of the source: keep the files whose validation result is
truthy, sort them (Python's stable sort on strings; string comparison is
antisymmetric, so any sorting algorithm gives the same list as insertion
sort), and process them in that order. -/
def processedFiles (fs : FileSys) (files : List String) : List String :=
  List.insertionSort (fun a b => pyStrLe a b = true)
    (files.filter fun f => (validate_file fs f).1.getD false)

/-! ### Helper lemmas -/

theorem spaceJoin_cons (s : String) (l : List String) (h : l ≠ []) :
    spaceJoin (s :: l) = s ++ " " ++ spaceJoin l := by
  cases l with
  | nil => exact absurd rfl h
  | cons a t => rfl

theorem zipWith_pair_map_fst :
    ∀ (para : Paragraph) (lines : List String), para.length ≤ lines.length →
      (para.zipWith (fun p line => (p.1, line)) lines).map Prod.fst
        = para.map Prod.fst
  | [], _, _ => rfl
  | p :: ps, [], h => by simp at h
  | p :: ps, a :: t, h => by
    simpa using zipWith_pair_map_fst ps t (Nat.le_of_succ_le_succ h)

theorem zipWith_pair_map_snd :
    ∀ (para : Paragraph) (lines : List String), lines.length = para.length →
      (para.zipWith (fun p line => (p.1, line)) lines).map Prod.snd = lines
  | [], [], _ => rfl
  | [], a :: t, h => by simp at h
  | p :: ps, [], h => by simp at h
  | p :: ps, a :: t, h => by
    simpa using zipWith_pair_map_snd ps t (by simpa using h)

theorem zipWith_pair_of_map (g : Nat × String → String) :
    ∀ para : Paragraph,
      para.zipWith (fun p line => (p.1, line)) (para.map g)
        = para.map fun p => (p.1, g p)
  | [] => rfl
  | p :: ps => by simpa using zipWith_pair_of_map g ps

theorem reconcileLines_eq_merge {lines : List String} {size : Nat}
    (h : size < lines.length) : reconcileLines lines size = mergeTail lines size := by
  unfold reconcileLines
  rw [if_pos h]

theorem reconcileLines_eq_pad {lines : List String} {size : Nat}
    (h : lines.length < size) :
    reconcileLines lines size = lines ++ List.replicate (size - lines.length) "" := by
  unfold reconcileLines
  rw [if_neg (by omega), if_pos h]

theorem reconcileLines_eq_self {lines : List String} {size : Nat}
    (h : lines.length = size) : reconcileLines lines size = lines := by
  unfold reconcileLines
  rw [if_neg (by omega), if_neg (by omega)]

theorem reconcileLines_length {lines : List String} {size : Nat} (h : 0 < size) :
    (reconcileLines lines size).length = size := by
  unfold reconcileLines mergeTail
  split
  · next hlt =>
    have ht : (lines.take size).length = size := List.length_take_of_le (by omega)
    simp only [List.length_append, List.length_dropLast, ht, List.length_singleton]
    omega
  · split
    · next hlt =>
      rw [List.length_append, List.length_replicate]
      omega
    · next h1 h2 => omega

theorem mergeTail_eq {lines : List String} {size : Nat} (h0 : 0 < size)
    (h : size < lines.length) :
    mergeTail lines size = lines.take (size - 1)
      ++ [spaceJoin (lines.getD (size - 1) "" :: (lines.drop size).reverse)] := by
  have hlen : (lines.take size).length = size := List.length_take_of_le (by omega)
  have h1 : (lines.take size).dropLast = lines.take (size - 1) := by
    rw [List.dropLast_eq_take, hlen, List.take_take, Nat.min_eq_left (by omega)]
  have h2 : (lines.take size).getLastD "" = lines.getD (size - 1) "" := by
    rw [List.getLastD_eq_getLast?, List.getLast?_eq_getElem?, hlen,
      List.getElem?_take_of_lt (by omega), List.getD_eq_getElem?_getD]
  have hrev : ((lines.drop size).reverse : List String) ≠ [] := by
    intro he
    have := congrArg List.length he
    simp at this
    omega
  unfold mergeTail
  rw [h1, h2, spaceJoin_cons _ _ hrev]
  rfl

theorem tsp_not_cc {tf : String → String} {tok : String → List String}
    {wr : String → Nat → List String} {para : Paragraph} (hne : para ≠ [])
    (hcc : pyLower (rawParagraph para) ≠ "creative commons") :
    translate_split_paragraph tf tok wr para
      = (para.zipWith (fun p line => (p.1, line))
          (reconcileLines (wrappedTranslation tf tok wr para) para.length),
         tok (rawParagraph para)) := by
  cases para with
  | nil => exact absurd rfl hne
  | cons p ps =>
    unfold translate_split_paragraph
    rw [if_neg hcc]

theorem tsp_cc {tf : String → String} {tok : String → List String}
    {wr : String → Nat → List String} {para : Paragraph} (hne : para ≠ [])
    (hcc : pyLower (rawParagraph para) = "creative commons") :
    translate_split_paragraph tf tok wr para = (para, []) := by
  cases para with
  | nil => exact absurd rfl hne
  | cons p ps =>
    unfold translate_split_paragraph
    rw [if_pos hcc]

theorem tsp_fst_not_cc {tf : String → String} {tok : String → List String}
    {wr : String → Nat → List String} {para : Paragraph} (hne : para ≠ [])
    (hcc : pyLower (rawParagraph para) ≠ "creative commons") :
    (translate_split_paragraph tf tok wr para).1
      = para.zipWith (fun p line => (p.1, line))
          (reconcileLines (wrappedTranslation tf tok wr para) para.length) := by
  rw [tsp_not_cc hne hcc]

theorem tsp_fst_cc {tf : String → String} {tok : String → List String}
    {wr : String → Nat → List String} {para : Paragraph} (hne : para ≠ [])
    (hcc : pyLower (rawParagraph para) = "creative commons") :
    (translate_split_paragraph tf tok wr para).1 = para := by
  rw [tsp_cc hne hcc]

theorem foldl_max_eq_max? :
    ∀ l : List Nat, l.foldl Nat.max 0 = l.max?.getD 0
  | [] => rfl
  | a :: as => by
    rw [List.max?_cons', Option.getD_some]
    show List.foldl Nat.max (Nat.max 0 a) as = _
    rw [show Nat.max 0 a = a from Nat.zero_max a]

theorem tsp_map_fst (tf : String → String) (tok : String → List String)
    (wr : String → Nat → List String) : ∀ para : Paragraph,
    (translate_split_paragraph tf tok wr para).1.map Prod.fst
      = para.map Prod.fst := by
  intro para
  cases para with
  | nil => rfl
  | cons p ps =>
    by_cases hcc : pyLower (rawParagraph (p :: ps)) = "creative commons"
    · rw [tsp_fst_cc (List.cons_ne_nil p ps) hcc]
    · rw [tsp_fst_not_cc (List.cons_ne_nil p ps) hcc]
      exact zipWith_pair_map_fst _ _
        (le_of_eq (reconcileLines_length (Nat.succ_pos ps.length)).symm)

theorem applyAssignments_nil : ∀ (k : Nat) (cs : List Child),
    applyAssignments k cs [] = cs
  | _, [] => rfl
  | _, _ :: _ => rfl

theorem build_le : ∀ (cs : List Child) (k i : Nat) (s : String),
    (i, s) ∈ buildParagraph k cs → k ≤ i
  | [], _, _, _, h => absurd h (List.not_mem_nil _)
  | c :: cs, k, i, s, h => by
    by_cases hq : qualifies c
    · rw [buildParagraph, if_pos hq] at h
      rcases List.mem_cons.mp h with he | ht
      · injection he with h1 h2
        omega
      · exact Nat.le_of_succ_le (build_le cs (k + 1) i s ht)
    · rw [buildParagraph, if_neg hq] at h
      exact Nat.le_of_succ_le (build_le cs (k + 1) i s h)

theorem build_mem_spec : ∀ (cs : List Child) (k i : Nat) (s : String),
    (i, s) ∈ buildParagraph k cs →
      ∃ c, cs[i - k]? = some c ∧ qualifies c = true ∧ c.text = some s
  | [], _, _, _, h => absurd h (List.not_mem_nil _)
  | c :: cs, k, i, s, h => by
    by_cases hq : qualifies c
    · rw [buildParagraph, if_pos hq] at h
      rcases List.mem_cons.mp h with he | ht
      · injection he with h1 h2
        subst h1
        subst h2
        refine ⟨c, ?_, hq, ?_⟩
        · rw [Nat.sub_self]
          exact List.getElem?_cons_zero
        · unfold qualifies at hq
          cases hc : c.text with
          | none => rw [hc] at hq; simp at hq
          | some t => rfl
      · have hk2 := build_le cs (k + 1) i s ht
        obtain ⟨c', hc', hq', ht'⟩ := build_mem_spec cs (k + 1) i s ht
        refine ⟨c', ?_, hq', ht'⟩
        rw [show i - k = (i - (k + 1)) + 1 by omega, List.getElem?_cons_succ]
        exact hc'
    · rw [buildParagraph, if_neg hq] at h
      have hk2 := build_le cs (k + 1) i s h
      obtain ⟨c', hc', hq', ht'⟩ := build_mem_spec cs (k + 1) i s h
      refine ⟨c', ?_, hq', ht'⟩
      rw [show i - k = (i - (k + 1)) + 1 by omega, List.getElem?_cons_succ]
      exact hc'

theorem build_length : ∀ (cs : List Child) (k : Nat),
    (buildParagraph k cs).length = (cs.filter qualifies).length
  | [], _ => rfl
  | c :: cs, k => by
    by_cases hq : qualifies c
    · rw [buildParagraph, if_pos hq, List.filter_cons_of_pos hq,
        List.length_cons, List.length_cons, build_length cs (k + 1)]
    · rw [buildParagraph, if_neg hq,
        List.filter_cons_of_neg (Bool.not_eq_true _ ▸ hq)]
      exact build_length cs (k + 1)

theorem buildParagraph_eq_filter : ∀ (cs : List Child) (k : Nat),
    buildParagraph k cs
      = ((cs.enumFrom k).filter fun p => qualifies p.2).map
          fun p => (p.1, p.2.text.getD "")
  | [], _ => rfl
  | c :: cs, k => by
    rw [List.enumFrom_cons]
    by_cases hq : qualifies c
    · rw [buildParagraph, if_pos hq, buildParagraph_eq_filter cs (k + 1)]
      simp [List.filter_cons, hq]
    · rw [buildParagraph, if_neg hq, buildParagraph_eq_filter cs (k + 1)]
      simp [List.filter_cons, hq]

theorem applyAssignments_build_self : ∀ (cs : List Child) (k : Nat),
    applyAssignments k cs (buildParagraph k cs) = cs
  | [], _ => rfl
  | c :: cs, k => by
    by_cases hq : qualifies c
    · rw [buildParagraph, if_pos hq, applyAssignments, if_pos rfl,
        applyAssignments_build_self cs (k + 1)]
      congr 1
      unfold qualifies at hq
      cases hc : c.text with
      | none => rw [hc] at hq; simp at hq
      | some t => cases c with | mk tag text => simp_all
    · rw [buildParagraph, if_neg hq]
      cases hb : buildParagraph (k + 1) cs with
      | nil => rw [applyAssignments]
      | cons a rest =>
        have hk1 : k + 1 ≤ a.1 := by
          have hmem : (a.1, a.2) ∈ buildParagraph (k + 1) cs := by
            rw [hb]
            exact List.mem_cons_self a rest
          exact build_le cs (k + 1) a.1 a.2 hmem
        cases a with
        | mk a1 a2 =>
          rw [applyAssignments, if_neg (by omega : ¬ k = a1), ← hb,
            applyAssignments_build_self cs (k + 1)]

theorem applyAssignments_getElem?_notmem :
    ∀ (cs : List Child) (assigns : Paragraph) (k j : Nat),
      (k + j) ∉ assigns.map Prod.fst →
      (applyAssignments k cs assigns)[j]? = cs[j]?
  | [], assigns, _, _, _ => by cases assigns with
    | nil => rfl
    | cons a rest => cases a with | mk i t => rfl
  | _ :: _, [], _, _, _ => rfl
  | c :: cs, (i, t) :: rest, k, j, hn => by
    rw [applyAssignments]
    by_cases hk : k = i
    · rw [if_pos hk]
      cases j with
      | zero =>
        exact absurd (by rw [Nat.add_zero, hk]; exact List.mem_cons_self _ _) hn
      | succ j' =>
        rw [List.getElem?_cons_succ, List.getElem?_cons_succ]
        apply applyAssignments_getElem?_notmem cs rest (k + 1) j'
        intro hmem
        exact hn (by
          rw [List.map_cons]
          exact List.mem_cons_of_mem _
            (by rw [show k + (j' + 1) = (k + 1) + j' by omega]; exact hmem))
    · rw [if_neg hk]
      cases j with
      | zero => rw [List.getElem?_cons_zero, List.getElem?_cons_zero]
      | succ j' =>
        rw [List.getElem?_cons_succ, List.getElem?_cons_succ]
        apply applyAssignments_getElem?_notmem cs ((i, t) :: rest) (k + 1) j'
        intro hmem
        exact hn (by rw [show k + (j' + 1) = (k + 1) + j' by omega]; exact hmem)

theorem applyAssignments_single_getElem? :
    ∀ (cs : List Child) (k i : Nat) (s : String) (j : Nat),
      (applyAssignments k cs [(i, s)])[j]?
        = if k + j = i then cs[j]?.map fun c => { c with text := some s }
          else cs[j]?
  | [], k, i, s, j => by
    show (([] : List Child))[j]? = _
    split <;> rfl
  | c :: cs, k, i, s, j => by
    rw [applyAssignments]
    by_cases hk : k = i
    · rw [if_pos hk]
      cases j with
      | zero =>
        rw [if_pos (by omega), List.getElem?_cons_zero, List.getElem?_cons_zero]
        rfl
      | succ j' =>
        rw [List.getElem?_cons_succ, applyAssignments_nil,
          if_neg (by omega), List.getElem?_cons_succ]
    · rw [if_neg hk]
      cases j with
      | zero =>
        rw [if_neg (by omega), List.getElem?_cons_zero, List.getElem?_cons_zero]
      | succ j' =>
        rw [List.getElem?_cons_succ,
          applyAssignments_single_getElem? cs (k + 1) i s j',
          List.getElem?_cons_succ]
        by_cases hij : k + 1 + j' = i
        · rw [if_pos hij, if_pos (by omega)]
        · rw [if_neg hij, if_neg (by omega)]

theorem pte_nil {tf : String → String} {tok : String → List String}
    {wr : String → Nat → List String} {e : TextElem}
    (hb : buildParagraph 0 e.children = []) :
    processTextElement tf tok wr e
      = ({ text := (processTopText tf e).1, children := e.children },
         (processTopText tf e).2) := by
  unfold processTextElement
  rw [hb]

theorem pte_single {tf : String → String} {tok : String → List String}
    {wr : String → Nat → List String} {e : TextElem} {i : Nat} {t : String}
    (hb : buildParagraph 0 e.children = [(i, t)]) :
    processTextElement tf tok wr e
      = ({ text := (processTopText tf e).1,
           children := applyAssignments 0 e.children [(i, tf t)] },
         (processTopText tf e).2 ++ [t]) := by
  unfold processTextElement
  rw [hb]

theorem pte_multi {tf : String → String} {tok : String → List String}
    {wr : String → Nat → List String} {e : TextElem} {a b : Nat × String}
    {rest : Paragraph} (hb : buildParagraph 0 e.children = a :: b :: rest) :
    processTextElement tf tok wr e
      = ({ text := (processTopText tf e).1,
           children := applyAssignments 0 e.children
             (translate_split_paragraph tf tok wr (a :: b :: rest)).1 },
         (processTopText tf e).2
           ++ (translate_split_paragraph tf tok wr (a :: b :: rest)).2) := by
  unfold processTextElement
  rw [hb]

theorem pte_children_unassigned {tf : String → String}
    {tok : String → List String} {wr : String → Nat → List String}
    {e : TextElem} {j : Nat}
    (hnot : ∀ s, (j, s) ∉ buildParagraph 0 e.children) :
    (processTextElement tf tok wr e).1.children[j]? = e.children[j]? := by
  cases hb : buildParagraph 0 e.children with
  | nil => rw [pte_nil hb]
  | cons a tail =>
    cases tail with
    | nil =>
      cases a with
      | mk i t =>
        rw [pte_single hb]
        show (applyAssignments 0 e.children [(i, tf t)])[j]? = _
        rw [applyAssignments_single_getElem?, if_neg]
        intro hij
        refine hnot t ?_
        rw [hb, show j = i by omega]
        exact List.mem_cons_self _ _
    | cons b rest =>
      rw [pte_multi hb]
      show (applyAssignments 0 e.children
        (translate_split_paragraph tf tok wr (a :: b :: rest)).1)[j]? = _
      apply applyAssignments_getElem?_notmem
      rw [Nat.zero_add, tsp_map_fst, ← hb]
      intro hmem
      rcases List.mem_map.mp hmem with ⟨pr, hpr, hfst⟩
      exact hnot pr.2 (by
        have : pr = (j, pr.2) := by
          cases pr
          simp_all
        rw [← this]
        exact hpr)

/-! ### Claims about the paragraph reflow (`translate_split_paragraph`) -/

/-- C1, counterexample.  Paragraph of 2 fragments, identity translation, one
sentence; Python's `textwrap.wrap("ab cd", 1)` returns
`["a", "b", "c", "d"]` (break_long_words splits each 2-letter word at width
1), modelled by the constant wrap argument.  The claim predicts that the
last element receives the trailing `k + 1 = 3` lines in original order,
`"b c d"`; the code pops the surplus lines one at a time from the end, so
the last element actually receives `"b d c"`. -/
theorem C1_counterexample :
    (translate_split_paragraph id (fun s => [s]) (fun _ _ => ["a", "b", "c", "d"])
        [(0, "ab"), (1, "cd")]).1.map Prod.snd = ["a", "b d c"]
      ∧ (["a", "b d c"] : List String) ≠ ["a", "b c d"] := by
  decide

/-- C1, amended.  For a nonempty non-Creative-Commons paragraph of `n`
fragments whose translated text wraps into `n + k` lines, `k > 0`, the code
assigns exactly `n` lines to the `n` elements in order, and the last element
receives wrapped line `n - 1` followed by the `k` popped trailing lines in
REVERSE line order, space-joined (for `k = 1` this coincides with the
original order the claim states). -/
theorem C1_amended (tf : String → String) (tok : String → List String)
    (wr : String → Nat → List String) (para : Paragraph) (k : Nat)
    (hne : para ≠ []) (hcc : pyLower (rawParagraph para) ≠ "creative commons")
    (hk : 0 < k)
    (hlen : (wrappedTranslation tf tok wr para).length = para.length + k) :
    (translate_split_paragraph tf tok wr para).1.length = para.length
      ∧ (translate_split_paragraph tf tok wr para).1.map Prod.fst
          = para.map Prod.fst
      ∧ (translate_split_paragraph tf tok wr para).1.map Prod.snd
          = (wrappedTranslation tf tok wr para).take (para.length - 1)
            ++ [spaceJoin
                 ((wrappedTranslation tf tok wr para).getD (para.length - 1) ""
                   :: ((wrappedTranslation tf tok wr para).drop para.length).reverse)] := by
  have hpos : 0 < para.length := List.length_pos.mpr hne
  have hrlen : (reconcileLines (wrappedTranslation tf tok wr para)
      para.length).length = para.length := reconcileLines_length hpos
  rw [tsp_fst_not_cc hne hcc]
  refine ⟨?_, ?_, ?_⟩
  · rw [List.length_zipWith, hrlen, Nat.min_self]
  · exact zipWith_pair_map_fst para _ (le_of_eq hrlen.symm)
  · rw [zipWith_pair_map_snd para _ hrlen,
      reconcileLines_eq_merge (by omega), mergeTail_eq hpos (by omega)]

/-- C1, witness for the amended theorem: 3 fragments, wrap result of 5
lines (`k = 2`); the last element receives line 2 (`"c"`) followed by the
popped lines `"e"`, `"d"` in reverse order: `"c e d"`. -/
theorem C1_witness :
    (0 < 2
      ∧ (wrappedTranslation id (fun s => [s]) (fun _ _ => ["a", "b", "c", "d", "e"])
          [(0, "ab"), (1, "cd"), (2, "ef")]).length
        = ([(0, "ab"), (1, "cd"), (2, "ef")] : Paragraph).length + 2)
    ∧ (translate_split_paragraph id (fun s => [s])
          (fun _ _ => ["a", "b", "c", "d", "e"]) [(0, "ab"), (1, "cd"), (2, "ef")]).1.map
            Prod.snd
        = (wrappedTranslation id (fun s => [s]) (fun _ _ => ["a", "b", "c", "d", "e"])
            [(0, "ab"), (1, "cd"), (2, "ef")]).take
              (([(0, "ab"), (1, "cd"), (2, "ef")] : Paragraph).length - 1)
          ++ [spaceJoin
               ((wrappedTranslation id (fun s => [s]) (fun _ _ => ["a", "b", "c", "d", "e"])
                   [(0, "ab"), (1, "cd"), (2, "ef")]).getD
                  (([(0, "ab"), (1, "cd"), (2, "ef")] : Paragraph).length - 1) ""
                 :: ((wrappedTranslation id (fun s => [s])
                       (fun _ _ => ["a", "b", "c", "d", "e"])
                       [(0, "ab"), (1, "cd"), (2, "ef")]).drop
                      ([(0, "ab"), (1, "cd"), (2, "ef")] : Paragraph).length).reverse)] :=
  ⟨⟨by decide, by decide⟩,
   (C1_amended id (fun s => [s]) (fun _ _ => ["a", "b", "c", "d", "e"])
      [(0, "ab"), (1, "cd"), (2, "ef")] 2 (by decide) (by decide) (by decide)
      (by decide)).2.2⟩

/-- Spec-side formula for the refinement claim C2, written from the spec's
words: join the stripped fragment texts with single spaces, sentence-tokenize,
translate each sentence, rejoin with spaces, and wrap to one less than the
maximum character length over the original (unstripped) fragment texts. -/
def specWrappedTranslation (tf : String → String) (tok : String → List String)
    (wr : String → Nat → List String) (para : Paragraph) : List String :=
  let joined := spaceJoin (para.map fun p => pyStrip p.2)
  let sentences := tok joined
  let translated := spaceJoin (sentences.map tf)
  let m := ((para.map fun p => p.2.length).max?).getD 0
  wr translated (m - 1)

/-- C2: for every paragraph with at least two fragments that is not the
creative-commons special case, the wrapped translated text the code computes
equals the spec's formula `wrap(T, m - 1)`. -/
theorem C2_theorem (tf : String → String) (tok : String → List String)
    (wr : String → Nat → List String) (para : Paragraph)
    (h2 : 2 ≤ para.length)
    (hcc : pyLower (rawParagraph para) ≠ "creative commons") :
    wrappedTranslation tf tok wr para = specWrappedTranslation tf tok wr para := by
  unfold wrappedTranslation specWrappedTranslation rawParagraph maxFragLen
  rw [foldl_max_eq_max?]

/-- C2, witness: a concrete 2-fragment paragraph with concrete translation,
tokenizer and wrapper instances. -/
theorem C2_witness :
    (2 ≤ ([(0, "Hello there. "), (1, "General!")] : Paragraph).length
      ∧ pyLower (rawParagraph [(0, "Hello there. "), (1, "General!")])
          ≠ "creative commons")
    ∧ wrappedTranslation (fun s => s ++ "X") (fun s => [s]) (fun s _ => [s])
        [(0, "Hello there. "), (1, "General!")]
      = specWrappedTranslation (fun s => s ++ "X") (fun s => [s]) (fun s _ => [s])
        [(0, "Hello there. "), (1, "General!")] :=
  ⟨⟨by decide, by decide⟩,
   C2_theorem (fun s => s ++ "X") (fun s => [s]) (fun s _ => [s])
     [(0, "Hello there. "), (1, "General!")] (by decide) (by decide)⟩

/-- C3: for a nonempty non-Creative-Commons paragraph of `n` fragments whose
translated text wraps into `n - k` lines, `k > 0`, the code assigns the
wrapped lines to the first `n - k` elements in order and the empty string to
each of the last `k` elements: the assigned positions are the paragraph's
positions in order and the assigned texts are the wrapped lines padded with
`k` empty strings. -/
theorem C3_theorem (tf : String → String) (tok : String → List String)
    (wr : String → Nat → List String) (para : Paragraph) (k : Nat)
    (hne : para ≠ []) (hcc : pyLower (rawParagraph para) ≠ "creative commons")
    (hk : 0 < k)
    (hlen : (wrappedTranslation tf tok wr para).length + k = para.length) :
    (translate_split_paragraph tf tok wr para).1.map Prod.fst = para.map Prod.fst
      ∧ (translate_split_paragraph tf tok wr para).1.map Prod.snd
          = wrappedTranslation tf tok wr para ++ List.replicate k "" := by
  have hpos : 0 < para.length := List.length_pos.mpr hne
  have hrlen : (reconcileLines (wrappedTranslation tf tok wr para)
      para.length).length = para.length := reconcileLines_length hpos
  have hpad : reconcileLines (wrappedTranslation tf tok wr para) para.length
      = wrappedTranslation tf tok wr para ++ List.replicate k "" := by
    rw [reconcileLines_eq_pad (by omega)]
    congr 2
    omega
  rw [tsp_fst_not_cc hne hcc]
  exact ⟨zipWith_pair_map_fst para _ (le_of_eq hrlen.symm),
    by rw [zipWith_pair_map_snd para _ hrlen, hpad]⟩

/-- C3, witness: 3 fragments whose translation wraps into a single line
(`k = 2`); the trailing two elements receive the empty string. -/
theorem C3_witness :
    (0 < 2
      ∧ (wrappedTranslation id (fun s => [s]) (fun _ _ => ["hi"])
            [(0, "abc"), (1, "de"), (2, "fg")]).length + 2
          = ([(0, "abc"), (1, "de"), (2, "fg")] : Paragraph).length)
    ∧ (translate_split_paragraph id (fun s => [s]) (fun _ _ => ["hi"])
          [(0, "abc"), (1, "de"), (2, "fg")]).1.map Prod.snd
        = wrappedTranslation id (fun s => [s]) (fun _ _ => ["hi"])
            [(0, "abc"), (1, "de"), (2, "fg")] ++ List.replicate 2 "" :=
  ⟨⟨by decide, by decide⟩,
   (C3_theorem id (fun s => [s]) (fun _ _ => ["hi"])
      [(0, "abc"), (1, "de"), (2, "fg")] 2 (by decide) (by decide) (by decide)
      (by decide)).2⟩

/-- C6, counterexample.  The code always wraps at width
`max fragment length - 1`, so the claim's premise "wrap width at least the
maximum original fragment length" is never satisfied by the code; the
round-trip itself fails.  With the identity translation, a one-sentence
tokenization, and the wrap behaviour of Python's
`textwrap.wrap("xy zw", 1) = ["x", "y", "z", "w"]` (the width is
`max(2,2) - 1 = 1`), the 2-fragment paragraph `["xy", "zw"]` comes back as
`["x", "y w z"]`, not the whitespace-normalized originals. -/
theorem C6_counterexample :
    (translate_split_paragraph id (fun s => [s]) (fun _ _ => ["x", "y", "z", "w"])
        [(0, "xy"), (1, "zw")]).1.map Prod.snd = ["x", "y w z"]
      ∧ (["x", "y w z"] : List String) ≠ [normalizeWs "xy", normalizeWs "zw"] := by
  decide

/-- C6, amended.  If the translation function is the identity and re-wrapping
the translated text at the width the code uses (maximum fragment length
minus one) yields exactly the list of stripped original fragment texts, then
each element is assigned its stripped original fragment text (the original
up to whitespace stripping). -/
theorem C6_amended (tok : String → List String) (wr : String → Nat → List String)
    (para : Paragraph) (hne : para ≠ [])
    (hcc : pyLower (rawParagraph para) ≠ "creative commons")
    (hw : wrappedTranslation id tok wr para = para.map fun p => pyStrip p.2) :
    (translate_split_paragraph id tok wr para).1
      = para.map fun p => (p.1, pyStrip p.2) := by
  have hlen : (wrappedTranslation id tok wr para).length = para.length := by
    rw [hw, List.length_map]
  rw [tsp_fst_not_cc hne hcc, reconcileLines_eq_self hlen, hw]
  exact zipWith_pair_of_map _ para

/-- C6, witness for the amended theorem: fragments `"ab "` (whose length 3
makes the wrap width 2) and `"cd"`; Python's `textwrap.wrap("ab cd", 2)`
returns `["ab", "cd"]`, exactly the stripped fragments, and each element
gets its stripped original back. -/
theorem C6_witness :
    (([(0, "ab "), (1, "cd")] : Paragraph) ≠ []
      ∧ pyLower (rawParagraph [(0, "ab "), (1, "cd")]) ≠ "creative commons"
      ∧ wrappedTranslation id (fun s => [s]) (fun _ _ => ["ab", "cd"])
          [(0, "ab "), (1, "cd")]
        = ([(0, "ab "), (1, "cd")] : Paragraph).map (fun p => pyStrip p.2))
    ∧ (translate_split_paragraph id (fun s => [s]) (fun _ _ => ["ab", "cd"])
          [(0, "ab "), (1, "cd")]).1
        = ([(0, "ab "), (1, "cd")] : Paragraph).map fun p => (p.1, pyStrip p.2) :=
  ⟨⟨by decide, by decide, by decide⟩,
   C6_amended (fun s => [s]) (fun _ _ => ["ab", "cd"]) [(0, "ab "), (1, "cd")]
     (by decide) (by decide) (by decide)⟩

/-! ### Claims about `translate_file` and `validate_file` -/

/-- C4, counterexample.  A paragraph consisting of a single tspan fragment
whose text is exactly "Creative Commons" satisfies the claim's hypothesis
(the stripped fragments, space-joined, case-insensitively equal
"creative commons"), yet `translate_file` takes the single-fragment path,
which has no creative-commons check: the fragment IS passed to the
translation function and its text changes. -/
theorem C4_counterexample :
    pyLower (rawParagraph (buildParagraph 0
        [⟨"\x7bns\x7dtspan", some "Creative Commons"⟩])) = "creative commons"
      ∧ translate_file (fun s => s ++ "!") (fun s => [s]) (fun s _ => [s])
          [⟨none, [⟨"\x7bns\x7dtspan", some "Creative Commons"⟩]⟩]
        = ([⟨none, [⟨"\x7bns\x7dtspan", some "Creative Commons!"⟩]⟩],
           ["Creative Commons"])
      ∧ (some "Creative Commons!" ≠ some "Creative Commons") := by
  decide

/-- C4, amended.  For every paragraph with AT LEAST TWO fragments whose
stripped fragment texts, space-joined, case-insensitively equal
"creative commons", processing leaves the element (children included)
unchanged except for its own top-level text, and the translation calls made
for the element are exactly the top-level-text calls: nothing from the
paragraph is translated.  (A single-fragment "Creative Commons" paragraph
is translated by the single-fragment path, as the counterexample shows.) -/
theorem C4_theorem (tf : String → String) (tok : String → List String)
    (wr : String → Nat → List String) (elems : List TextElem) (p : Nat)
    (e : TextElem) (he : elems[p]? = some e)
    (h2 : 2 ≤ (buildParagraph 0 e.children).length)
    (hcc : pyLower (rawParagraph (buildParagraph 0 e.children))
      = "creative commons") :
    (translate_file tf tok wr elems).1[p]?
        = some { text := (processTopText tf e).1, children := e.children }
      ∧ (processTextElement tf tok wr e).2 = (processTopText tf e).2 := by
  have hpte : processTextElement tf tok wr e
      = ({ text := (processTopText tf e).1, children := e.children },
         (processTopText tf e).2) := by
    cases hb : buildParagraph 0 e.children with
    | nil => rw [hb] at h2; simp at h2
    | cons a tail =>
      cases tail with
      | nil => rw [hb] at h2; simp at h2
      | cons b rest =>
        rw [pte_multi hb]
        rw [hb] at hcc
        rw [tsp_cc (List.cons_ne_nil a (b :: rest)) hcc, ← hb,
          applyAssignments_build_self, List.append_nil]
  constructor
  · show (elems.map fun e => (processTextElement tf tok wr e).1)[p]? = _
    rw [List.getElem?_map, he, Option.map_some', hpte]
  · rw [hpte]

/-- C4, witness for the amended theorem: a 2-fragment paragraph
`["Creative", "Commons"]`; the element comes back with its children intact
and no translation call is made for it. -/
theorem C4_witness :
    (([⟨none, [⟨"\x7bns\x7dtspan", some "Creative"⟩,
          ⟨"\x7bns\x7dtspan", some "Commons"⟩]⟩] : List TextElem)[0]?
        = some ⟨none, [⟨"\x7bns\x7dtspan", some "Creative"⟩,
            ⟨"\x7bns\x7dtspan", some "Commons"⟩]⟩
      ∧ 2 ≤ (buildParagraph 0
          [⟨"\x7bns\x7dtspan", some "Creative"⟩,
           ⟨"\x7bns\x7dtspan", some "Commons"⟩]).length
      ∧ pyLower (rawParagraph (buildParagraph 0
          [⟨"\x7bns\x7dtspan", some "Creative"⟩,
           ⟨"\x7bns\x7dtspan", some "Commons"⟩])) = "creative commons")
    ∧ ((translate_file (fun s => s ++ "!") (fun s => [s]) (fun s _ => [s])
          [⟨none, [⟨"\x7bns\x7dtspan", some "Creative"⟩,
              ⟨"\x7bns\x7dtspan", some "Commons"⟩]⟩]).1[0]?
        = some (⟨(processTopText (fun s => s ++ "!")
              ⟨none, [⟨"\x7bns\x7dtspan", some "Creative"⟩,
                  ⟨"\x7bns\x7dtspan", some "Commons"⟩]⟩).1,
            [⟨"\x7bns\x7dtspan", some "Creative"⟩,
              ⟨"\x7bns\x7dtspan", some "Commons"⟩]⟩ : TextElem)
      ∧ (processTextElement (fun s => s ++ "!") (fun s => [s]) (fun s _ => [s])
            ⟨none, [⟨"\x7bns\x7dtspan", some "Creative"⟩,
                ⟨"\x7bns\x7dtspan", some "Commons"⟩]⟩).2
          = (processTopText (fun s => s ++ "!")
              ⟨none, [⟨"\x7bns\x7dtspan", some "Creative"⟩,
                  ⟨"\x7bns\x7dtspan", some "Commons"⟩]⟩).2) :=
  ⟨⟨by decide, by decide, by decide⟩,
   C4_theorem (fun s => s ++ "!") (fun s => [s]) (fun s _ => [s])
     [⟨none, [⟨"\x7bns\x7dtspan", some "Creative"⟩,
         ⟨"\x7bns\x7dtspan", some "Commons"⟩]⟩] 0
     ⟨none, [⟨"\x7bns\x7dtspan", some "Creative"⟩,
         ⟨"\x7bns\x7dtspan", some "Commons"⟩]⟩
     (by decide) (by decide) (by decide)⟩

/-- C5: the claim says a text element whose text CONTAINS one of
`< > ^ * =` is never passed to the translation function and is left
unchanged.  The code checks the element's own text with
`INVALID_TEXT.match`, which anchors at the start of the string, so only a
LEADING invalid character is caught; the sibling tspan branch uses
`findall` (a contains check), showing the contains semantics is the intent
and `.match` a slip.  Evaluation at the failing input: the text `"a<b"`
contains `<` yet is passed to the translator (it appears in the call log)
and its text changes. -/
theorem C5_theorem :
    invalidTextFindall "a<b" = true
      ∧ invalidTextMatch "a<b" = false
      ∧ translate_file (fun s => s ++ "!") (fun s => [s]) (fun s _ => [s])
          [⟨some "a<b", []⟩]
        = ([⟨some "a<b!", []⟩], ["a<b"]) := by
  decide

/-- C7: the paragraph lists exactly the qualifying tspan children in
document order (it is the in-order filter of the position-enumerated
children), and the reflow assigns lines back to exactly those positions in
the same order (the assignment's position list is the paragraph's). -/
theorem C7_theorem :
    (∀ (cs : List Child) (k : Nat),
        buildParagraph k cs
          = ((cs.enumFrom k).filter fun p => qualifies p.2).map
              fun p => (p.1, p.2.text.getD ""))
      ∧ ∀ (tf : String → String) (tok : String → List String)
          (wr : String → Nat → List String) (para : Paragraph),
          (translate_split_paragraph tf tok wr para).1.map Prod.fst
            = para.map Prod.fst :=
  ⟨buildParagraph_eq_filter, tsp_map_fst⟩

/-- C9: for a paragraph of exactly one fragment `(i, t)`, the element's
child at position `i` gets `tf t` — the translation of the whole fragment
text — and every other child is untouched; the call log records the single
direct call on `t`.  The conclusion does not depend on the tokenizer or the
wrapper, which shows no sentence tokenization, no wrapping and no
line-count reconciliation happen on this path, and it holds with no
creative-commons restriction on `t`. -/
theorem C9_theorem (tf : String → String) (tok : String → List String)
    (wr : String → Nat → List String) (elems : List TextElem) (p : Nat)
    (e : TextElem) (i : Nat) (t : String) (he : elems[p]? = some e)
    (hb : buildParagraph 0 e.children = [(i, t)]) :
    (∃ e', (translate_file tf tok wr elems).1[p]? = some e'
      ∧ e'.text = (processTopText tf e).1
      ∧ ∀ j, e'.children[j]?
          = if j = i
            then e.children[j]?.map fun c => { c with text := some (tf t) }
            else e.children[j]?)
      ∧ (processTextElement tf tok wr e).2 = (processTopText tf e).2 ++ [t] := by
  constructor
  · refine ⟨(processTextElement tf tok wr e).1, ?_, ?_, ?_⟩
    · show (elems.map fun e => (processTextElement tf tok wr e).1)[p]? = _
      rw [List.getElem?_map, he, Option.map_some']
    · rw [pte_single hb]
    · intro j
      rw [pte_single hb]
      show (applyAssignments 0 e.children [(i, tf t)])[j]? = _
      rw [applyAssignments_single_getElem?]
      by_cases hj : j = i
      · rw [if_pos (by omega), if_pos hj]
      · rw [if_neg (by omega), if_neg hj]
  · rw [pte_single hb]

/-- C9, witness: a lone tspan whose text is "Creative Commons" — the
single-fragment path translates it directly (no creative-commons
exemption). -/
theorem C9_witness :
    (([⟨none, [⟨"\x7bns\x7dtspan", some "Creative Commons"⟩]⟩] :
          List TextElem)[0]?
        = some ⟨none, [⟨"\x7bns\x7dtspan", some "Creative Commons"⟩]⟩
      ∧ buildParagraph 0 [⟨"\x7bns\x7dtspan", some "Creative Commons"⟩]
          = [(0, "Creative Commons")])
    ∧ ((∃ e', (translate_file (fun s => s ++ "!") (fun s => [s]) (fun s _ => [s])
            [⟨none, [⟨"\x7bns\x7dtspan", some "Creative Commons"⟩]⟩]).1[0]?
          = some e'
        ∧ e'.text = (processTopText (fun s => s ++ "!")
            ⟨none, [⟨"\x7bns\x7dtspan", some "Creative Commons"⟩]⟩).1
        ∧ ∀ j, e'.children[j]?
            = if j = 0
              then ([⟨"\x7bns\x7dtspan", some "Creative Commons"⟩] :
                  List Child)[j]?.map
                  fun c => { c with text := some ("Creative Commons" ++ "!") }
              else ([⟨"\x7bns\x7dtspan", some "Creative Commons"⟩] :
                  List Child)[j]?)
      ∧ (processTextElement (fun s => s ++ "!") (fun s => [s]) (fun s _ => [s])
            ⟨none, [⟨"\x7bns\x7dtspan", some "Creative Commons"⟩]⟩).2
          = (processTopText (fun s => s ++ "!")
              ⟨none, [⟨"\x7bns\x7dtspan", some "Creative Commons"⟩]⟩).2
            ++ ["Creative Commons"]) :=
  ⟨⟨by decide, by decide⟩,
   C9_theorem (fun s => s ++ "!") (fun s => [s]) (fun s _ => [s])
     [⟨none, [⟨"\x7bns\x7dtspan", some "Creative Commons"⟩]⟩] 0
     ⟨none, [⟨"\x7bns\x7dtspan", some "Creative Commons"⟩]⟩ 0
     "Creative Commons" (by decide) (by decide)⟩

/-- C10: a child whose tag does not match the tspan pattern, or whose text
is missing or empty, contributes no entry to the paragraph at its position,
survives processing entirely unchanged, and the paragraph's length — the
"original line count" of the reflow — counts only qualifying children. -/
theorem C10_theorem (tf : String → String) (tok : String → List String)
    (wr : String → Nat → List String) (elems : List TextElem) (p j : Nat)
    (e : TextElem) (c : Child) (he : elems[p]? = some e)
    (hc : e.children[j]? = some c)
    (hbad : isTspanTag c.tag = false ∨ c.text = none ∨ c.text = some "") :
    (∀ s, (j, s) ∉ buildParagraph 0 e.children)
      ∧ (∃ e', (translate_file tf tok wr elems).1[p]? = some e'
          ∧ e'.children[j]? = some c)
      ∧ (buildParagraph 0 e.children).length
          = (e.children.filter qualifies).length := by
  have hnq : qualifies c = false := by
    unfold qualifies
    rcases hbad with h | h | h <;> rw [h] <;> simp
  have hnot : ∀ s, (j, s) ∉ buildParagraph 0 e.children := by
    intro s hmem
    obtain ⟨c', hc', hq', -⟩ := build_mem_spec _ 0 j s hmem
    rw [Nat.sub_zero, hc] at hc'
    injection hc' with hcc'
    rw [← hcc', hnq] at hq'
    cases hq'
  refine ⟨hnot, ⟨(processTextElement tf tok wr e).1, ?_, ?_⟩, build_length _ 0⟩
  · show (elems.map fun e => (processTextElement tf tok wr e).1)[p]? = _
    rw [List.getElem?_map, he, Option.map_some']
  · rw [pte_children_unassigned hnot, hc]

/-- C10, witness: a `rect` child, a text-less tspan and an empty tspan
around one qualifying tspan; position 0 (the rect) is excluded and
unchanged. -/
theorem C10_witness :
    (([⟨none, [⟨"\x7bns\x7drect", some "keep"⟩,
          ⟨"\x7bns\x7dtspan", some "hello"⟩]⟩] : List TextElem)[0]?
        = some ⟨none, [⟨"\x7bns\x7drect", some "keep"⟩,
            ⟨"\x7bns\x7dtspan", some "hello"⟩]⟩
      ∧ ([⟨"\x7bns\x7drect", some "keep"⟩,
          ⟨"\x7bns\x7dtspan", some "hello"⟩] : List Child)[0]?
          = some ⟨"\x7bns\x7drect", some "keep"⟩
      ∧ (isTspanTag "\x7bns\x7drect" = false
          ∨ (⟨"\x7bns\x7drect", some "keep"⟩ : Child).text = none
          ∨ (⟨"\x7bns\x7drect", some "keep"⟩ : Child).text = some ""))
    ∧ ((∀ s, ((0 : Nat), s) ∉ buildParagraph 0
          [⟨"\x7bns\x7drect", some "keep"⟩, ⟨"\x7bns\x7dtspan", some "hello"⟩])
      ∧ (∃ e', (translate_file (fun s => s ++ "!") (fun s => [s]) (fun s _ => [s])
            [⟨none, [⟨"\x7bns\x7drect", some "keep"⟩,
                ⟨"\x7bns\x7dtspan", some "hello"⟩]⟩]).1[0]?
          = some e'
          ∧ e'.children[0]? = some ⟨"\x7bns\x7drect", some "keep"⟩)
      ∧ (buildParagraph 0 [⟨"\x7bns\x7drect", some "keep"⟩,
            ⟨"\x7bns\x7dtspan", some "hello"⟩]).length
          = ([⟨"\x7bns\x7drect", some "keep"⟩,
              ⟨"\x7bns\x7dtspan", some "hello"⟩].filter qualifies).length) :=
  ⟨⟨by decide, by decide, by decide⟩,
   C10_theorem (fun s => s ++ "!") (fun s => [s]) (fun s _ => [s])
     [⟨none, [⟨"\x7bns\x7drect", some "keep"⟩,
         ⟨"\x7bns\x7dtspan", some "hello"⟩]⟩] 0 0
     ⟨none, [⟨"\x7bns\x7drect", some "keep"⟩,
         ⟨"\x7bns\x7dtspan", some "hello"⟩]⟩
     ⟨"\x7bns\x7drect", some "keep"⟩ (by decide) (by decide) (by decide)⟩

/-- C8, counterexample.  The claim reads "does not name an SVG file"; the
code only checks `fname.endswith('svg')`, with no dot.  The path `"xsvg"`
does not carry the `.svg` extension, yet (existing, as a regular file) it
is accepted with no warning and processed. -/
theorem C8_counterexample :
    pyEndsWith "xsvg" ".svg" = false
      ∧ validate_file ⟨fun _ => true, fun _ => true⟩ "xsvg" = (some true, false)
      ∧ processedFiles ⟨fun _ => true, fun _ => true⟩ ["xsvg"] = ["xsvg"] := by
  decide

/-- C8, amended.  For every input path that does not exist or does not END
WITH the three characters "svg", validation rejects it with a warning
(returns a falsy value and logs), the file is absent from the processed
list, and every file whose validation returns `True` is still processed. -/
theorem C8_theorem (fs : FileSys) (files : List String) (f : String)
    (hf : f ∈ files)
    (hbad : fs.pathExists f = false ∨ pyEndsWith f "svg" = false) :
    validate_file fs f = (some false, true)
      ∧ f ∉ processedFiles fs files
      ∧ ∀ g ∈ files, (validate_file fs g).1 = some true →
          g ∈ processedFiles fs files := by
  have hv : validate_file fs f = (some false, true) := by
    unfold validate_file
    rcases hbad with h | h
    · rw [if_pos h]
    · by_cases hex : fs.pathExists f = false
      · rw [if_pos hex]
      · rw [if_neg hex, if_pos h]
  refine ⟨hv, ?_, ?_⟩
  · unfold processedFiles
    rw [List.mem_insertionSort, List.mem_filter]
    rintro ⟨-, hp⟩
    rw [hv] at hp
    simp at hp
  · intro g hg hgv
    unfold processedFiles
    rw [List.mem_insertionSort, List.mem_filter]
    exact ⟨hg, by rw [hgv]; rfl⟩

/-- C8, witness: `"b.txt"` (exists, wrong extension) is rejected with a
warning and skipped while `"a.svg"` is still processed. -/
theorem C8_witness :
    ("b.txt" ∈ ["b.txt", "a.svg"]
      ∧ ((⟨fun _ => true, fun _ => true⟩ : FileSys).pathExists "b.txt" = false
          ∨ pyEndsWith "b.txt" "svg" = false))
    ∧ (validate_file ⟨fun _ => true, fun _ => true⟩ "b.txt" = (some false, true)
      ∧ "b.txt" ∉ processedFiles ⟨fun _ => true, fun _ => true⟩ ["b.txt", "a.svg"]
      ∧ ∀ g ∈ ["b.txt", "a.svg"],
          (validate_file ⟨fun _ => true, fun _ => true⟩ g).1 = some true →
            g ∈ processedFiles ⟨fun _ => true, fun _ => true⟩ ["b.txt", "a.svg"]) :=
  ⟨⟨by decide, by decide⟩,
   C8_theorem ⟨fun _ => true, fun _ => true⟩ ["b.txt", "a.svg"] "b.txt"
     (by decide) (by decide)⟩

end SvgTranslator
